import Mathlib

/-!
Verification development for the Google Home Exposure Manager override
propagation state machine and auto-alias pass, embedded from
`custom_components/google_home_exposure_manager/frontend/alias-suggestions.js`.

Stored overrides are modelled as the raw JavaScript encodings the panel can
encounter: a bare boolean (very old format), an object with an `expose` field
and an optional `source` field, or any other unrecognized value.  Maps are
modelled as functions from string identifiers to optional values, mirroring
JavaScript object maps (absent key = `undefined`).
-/

namespace GHEM

/-- The `source` field of an override: set directly by the user (`selected`)
or written by propagation (`implied`). -/
inductive Source where
  | selected
  | implied
deriving DecidableEq, Repr

/-- A normalized override as returned by `_getEntityOverrideInfo` /
`_getDeviceOverrideInfo`: an expose flag plus a source tag. -/
structure OverrideInfo where
  expose : Bool
  source : Source
deriving DecidableEq, Repr

/-- A raw stored override value, covering the encodings the JavaScript code
distinguishes: a bare boolean, an object carrying an `expose` key with an
optional `source` key, or any other (unrecognized) value. -/
inductive StoredOverride where
  | bool (b : Bool)
  | obj (expose : Bool) (source : Option Source)
  | other
deriving DecidableEq, Repr

/-- An entry of `this._entities`: entity id, optional owning device id,
optional display name. -/
structure Entity where
  entity_id : String
  device_id : Option String
  name : Option String
deriving DecidableEq, Repr

/-- A per-entity `entity_config` entry (name, aliases, room). -/
structure EntityConfig where
  name : Option String
  aliases : Option (List String)
  room : Option String
deriving DecidableEq, Repr

/-- The parts of `this._pendingConfig` the modelled operations read and
write. -/
structure Config where
  entity_overrides : String → Option StoredOverride
  device_overrides : String → Option StoredOverride
  filtered_entities : List String
  filtered_devices : List String
  entity_config : String → Option EntityConfig
  settings_auto_aliases : Option Bool

/-- Pointwise update of a string-keyed map; `v = none` models `delete m[k]`,
`v = some x` models `m[k] = x`. -/
def mapSet {α : Type} (m : String → Option α) (k : String) (v : Option α) :
    String → Option α :=
  fun x => if x = k then v else m x

/-- Normalization shared by `_getEntityOverrideInfo` and
`_getDeviceOverrideInfo`.  The JavaScript first returns `null` for any falsy
stored value (which captures the bare boolean `false`), then handles an
object with an `expose` key (defaulting a missing `source` to `selected`),
then a (necessarily `true`) bare boolean, and returns `null` otherwise. -/
def normalizeOverride : StoredOverride → Option OverrideInfo
  | .bool false => none
  | .bool true => some ⟨true, .selected⟩
  | .obj e s => some ⟨e, s.getD .selected⟩
  | .other => none

/-- `_getEntityOverrideInfo`. -/
def getEntityOverrideInfo (cfg : Config) (entityId : String) :
    Option OverrideInfo :=
  (cfg.entity_overrides entityId).bind normalizeOverride

/-- `_getDeviceOverrideInfo`. -/
def getDeviceOverrideInfo (cfg : Config) (deviceId : String) :
    Option OverrideInfo :=
  (cfg.device_overrides deviceId).bind normalizeOverride

/-- `_isEntityFiltered`. -/
def isEntityFiltered (cfg : Config) (entityId : String) : Bool :=
  cfg.filtered_entities.contains entityId

/-- `_isDeviceFiltered`. -/
def isDeviceFiltered (cfg : Config) (deviceId : String) : Bool :=
  cfg.filtered_devices.contains deviceId

/-- The body of the loop in `_propagateDeviceToEntities`, acting on the
copied `overrides` map for one entity of the device.  The normalized current
override is read from the pending config (`cfg`), not from the copy being
built, exactly as in the source. -/
def propagateStep (cfg : Config) (expose : Option Bool)
    (ov : String → Option StoredOverride) (e : Entity) :
    String → Option StoredOverride :=
  if isEntityFiltered cfg e.entity_id then ov
  else
    match expose with
    | none =>
      if (getEntityOverrideInfo cfg e.entity_id).map OverrideInfo.source
          = some Source.implied then
        mapSet ov e.entity_id none
      else ov
    | some x =>
      if getEntityOverrideInfo cfg e.entity_id = none ∨
          (getEntityOverrideInfo cfg e.entity_id).map OverrideInfo.source
            = some Source.implied then
        mapSet ov e.entity_id (some (StoredOverride.obj x (some Source.implied)))
      else ov

/-- The entities owned by a device
(`this._entities.filter(e => e.device_id === deviceId)`). -/
def deviceEntitiesOf (entities : List Entity) (deviceId : String) :
    List Entity :=
  entities.filter fun e => e.device_id == some deviceId

/-- The non-filtered entities owned by a device
(`deviceEntities.filter(e => !this._isEntityFiltered(e.entity_id))`). -/
def activeEntitiesOf (entities : List Entity) (cfg : Config)
    (deviceId : String) : List Entity :=
  (deviceEntitiesOf entities deviceId).filter
    fun e => !(isEntityFiltered cfg e.entity_id)

/-- `_propagateDeviceToEntities`.  The `deviceSource` argument is passed by
the caller but never used in the body, as in the source. -/
def propagateDeviceToEntities (entities : List Entity) (cfg : Config)
    (deviceId : String) (expose : Option Bool) (_deviceSource : Source) :
    Config :=
  { cfg with
    entity_overrides :=
      (deviceEntitiesOf entities deviceId).foldl (propagateStep cfg expose)
        cfg.entity_overrides }

/-- The `allSelected` / `allSameValue` / `firstValue` loop of
`_recalculateDeviceState`, folded into one scan.  The accumulator is
`firstValue`; the result is `some v` exactly when the loop finishes with
`allSelected && allSameValue && firstValue !== null` and `firstValue = v`,
and `none` when the loop breaks (or ends) with the condition false. -/
def scanSelected (cfg : Config) : List Entity → Option Bool → Option Bool
  | [], acc => acc
  | e :: rest, acc =>
    match getEntityOverrideInfo cfg e.entity_id with
    | some info =>
      if info.source = Source.selected then
        match acc with
        | none => scanSelected cfg rest (some info.expose)
        | some v => if info.expose = v then scanSelected cfg rest (some v) else none
      else none
    | none => none

/-- `_recalculateDeviceState`. -/
def recalculateDeviceState (entities : List Entity) (cfg : Config)
    (deviceId : String) : Config :=
  let activeEntities := activeEntitiesOf entities cfg deviceId
  if activeEntities = [] then cfg
  else
    let deviceOverride := getDeviceOverrideInfo cfg deviceId
    if deviceOverride.map OverrideInfo.source = some Source.selected then cfg
    else
      match scanSelected cfg activeEntities none with
      | some v =>
        { cfg with
          device_overrides :=
            mapSet cfg.device_overrides deviceId
              (some (StoredOverride.obj v (some Source.implied))) }
      | none =>
        if deviceOverride.map OverrideInfo.source = some Source.implied then
          { cfg with
            device_overrides := mapSet cfg.device_overrides deviceId none }
        else cfg

/-- `_setEntityOverride`: write (or delete) the entity override, then
recalculate the owning device when the entity is found and has one. -/
def setEntityOverride (entities : List Entity) (cfg : Config)
    (entityId : String) (expose : Option Bool) (source : Source) : Config :=
  let cfg1 :=
    { cfg with
      entity_overrides :=
        mapSet cfg.entity_overrides entityId
          (expose.map fun x => StoredOverride.obj x (some source)) }
  match (entities.find? fun e => e.entity_id == entityId).bind Entity.device_id with
  | some did => recalculateDeviceState entities cfg1 did
  | none => cfg1

/-- `_setDeviceOverride`: write (or delete) the device override, then
propagate to the entities of the device. -/
def setDeviceOverride (entities : List Entity) (cfg : Config)
    (deviceId : String) (expose : Option Bool) (source : Source) : Config :=
  let cfg1 :=
    { cfg with
      device_overrides :=
        mapSet cfg.device_overrides deviceId
          (expose.map fun x => StoredOverride.obj x (some source)) }
  propagateDeviceToEntities entities cfg1 deviceId expose source

/-- `_handleEntityButtonClick`. -/
def handleEntityButtonClick (entities : List Entity) (cfg : Config)
    (entityId : String) (targetExpose : Bool) : Config :=
  let currentOverride := getEntityOverrideInfo cfg entityId
  if currentOverride.map OverrideInfo.expose = some targetExpose ∧
      currentOverride.map OverrideInfo.source = some Source.selected then
    setEntityOverride entities cfg entityId none Source.selected
  else
    setEntityOverride entities cfg entityId (some targetExpose) Source.selected

/-- `_handleDeviceButtonClick`. -/
def handleDeviceButtonClick (entities : List Entity) (cfg : Config)
    (deviceId : String) (targetExpose : Bool) : Config :=
  let currentOverride := getDeviceOverrideInfo cfg deviceId
  if currentOverride.map OverrideInfo.expose = some targetExpose ∧
      currentOverride.map OverrideInfo.source = some Source.selected then
    setDeviceOverride entities cfg deviceId none Source.selected
  else
    setDeviceOverride entities cfg deviceId (some targetExpose) Source.selected

/-- One user edit: an entity button click or a device button click. -/
inductive Action where
  | entityClick (entityId : String) (targetExpose : Bool)
  | deviceClick (deviceId : String) (targetExpose : Bool)
deriving DecidableEq, Repr

/-- Apply one user edit to the pending config. -/
def applyAction (entities : List Entity) (cfg : Config) : Action → Config
  | .entityClick e x => handleEntityButtonClick entities cfg e x
  | .deviceClick d x => handleDeviceButtonClick entities cfg d x

/-- Apply a sequence of user edits, in order. -/
def applyActions (entities : List Entity) (cfg : Config)
    (acts : List Action) : Config :=
  acts.foldl (applyAction entities) cfg

/-- Per-key effect of one `propagateStep` iteration: `none` when the loop
body skips the entity with this id, `some t` when it writes `t` at this key
(`t = none` models the delete). -/
def stepResult (cfg : Config) (expose : Option Bool) (k : String) :
    Option (Option StoredOverride) :=
  if isEntityFiltered cfg k then none
  else
    match expose with
    | none =>
      if (getEntityOverrideInfo cfg k).map OverrideInfo.source
          = some Source.implied then
        some none
      else none
    | some x =>
      if getEntityOverrideInfo cfg k = none ∨
          (getEntityOverrideInfo cfg k).map OverrideInfo.source
            = some Source.implied then
        some (some (StoredOverride.obj x (some Source.implied)))
      else none

/-- Empty override map (no stored overrides). -/
def emptyOv : String → Option StoredOverride := fun _ => none

/-- Empty entity-config map. -/
def emptyEc : String → Option EntityConfig := fun _ => none

/-- A config with no overrides, no filters and no entity config. -/
def baseConfig : Config :=
  { entity_overrides := emptyOv, device_overrides := emptyOv,
    filtered_entities := [], filtered_devices := [],
    entity_config := emptyEc, settings_auto_aliases := none }

/-- A two-entity topology: both entities owned by device `d1`. -/
def sampleEntities : List Entity :=
  [⟨"light.e1", some "d1", none⟩, ⟨"light.e2", some "d1", none⟩]

/-- `pluralize` from alias-suggestions.js: common English pluralization. -/
def pluralize (word : String) : String :=
  let lower := word.toLower
  if lower.endsWith "y"
      && !(["ay", "ey", "iy", "oy", "uy"].any fun v => lower.endsWith v) then
    word.dropRight 1 ++ "ies"
  else if lower.endsWith "s" || lower.endsWith "x" || lower.endsWith "ch"
      || lower.endsWith "sh" then
    word ++ "es"
  else if lower.endsWith "f" then
    word.dropRight 1 ++ "ves"
  else if lower.endsWith "fe" then
    word.dropRight 2 ++ "ves"
  else
    word ++ "s"

/-- `singularize` from alias-suggestions.js. -/
def singularize (word : String) : String :=
  let lower := word.toLower
  if lower.endsWith "ies" then
    word.dropRight 3 ++ "y"
  else if lower.endsWith "ves" then
    word.dropRight 3 ++ "f"
  else if lower.endsWith "es" && (lower.endsWith "sses" || lower.endsWith "xes"
      || lower.endsWith "ches" || lower.endsWith "shes") then
    word.dropRight 2
  else if lower.endsWith "s" && !(lower.endsWith "ss") then
    word.dropRight 1
  else
    word

/-- `WORD_SYNONYMS` from alias-suggestions.js, in source order. -/
def WORD_SYNONYMS : List (String × List String) :=
  [("light", ["lamp", "lights"]),
   ("lamp", ["light", "lamps"]),
   ("lights", ["light", "lamps"]),
   ("fan", ["fans", "ceiling fan"]),
   ("fans", ["fan", "ceiling fans"]),
   ("switch", ["switches"]),
   ("switches", ["switch"]),
   ("outlet", ["plug", "socket"]),
   ("plug", ["outlet", "socket"]),
   ("tv", ["television", "telly", "screen"]),
   ("television", ["tv", "telly"]),
   ("ac", ["air conditioner", "air conditioning", "cooling"]),
   ("air conditioner", ["ac", "cooling"]),
   ("heater", ["heating", "heat"]),
   ("heating", ["heater", "heat"]),
   ("thermostat", ["temperature"]),
   ("blind", ["blinds", "shade", "shades", "window cover"]),
   ("blinds", ["blind", "shades", "window covers"]),
   ("shade", ["shades", "blind", "blinds"]),
   ("shades", ["shade", "blinds"]),
   ("curtain", ["curtains", "drapes"]),
   ("curtains", ["curtain", "drapes"]),
   ("drape", ["drapes", "curtains"]),
   ("drapes", ["drape", "curtains"]),
   ("door", ["doors"]),
   ("doors", ["door"]),
   ("lock", ["locks", "door lock"]),
   ("locks", ["lock", "door locks"]),
   ("camera", ["cameras", "cam"]),
   ("cameras", ["camera", "cams"]),
   ("speaker", ["speakers", "music"]),
   ("speakers", ["speaker"]),
   ("vacuum", ["vacuums", "robot vacuum", "roomba"]),
   ("roomba", ["vacuum", "robot vacuum"]),
   ("garage", ["garage door"]),
   ("garage door", ["garage"])]

/-- `ROOM_ALTERNATIVES` from alias-suggestions.js, in source order. -/
def ROOM_ALTERNATIVES : List (String × List String) :=
  [("living room", ["front room", "lounge", "family room"]),
   ("family room", ["living room", "lounge"]),
   ("lounge", ["living room", "front room"]),
   ("bedroom", ["bed room"]),
   ("bed room", ["bedroom"]),
   ("bathroom", ["bath", "washroom", "restroom"]),
   ("bath", ["bathroom"]),
   ("master bedroom", ["main bedroom", "primary bedroom"]),
   ("master bathroom", ["main bathroom", "primary bathroom"]),
   ("kids room", ["children\x27s room", "kid\x27s room"]),
   ("guest room", ["spare room", "guest bedroom"]),
   ("spare room", ["guest room"]),
   ("dining room", ["dining area"]),
   ("back yard", ["backyard", "garden"]),
   ("backyard", ["back yard", "garden"]),
   ("front yard", ["front garden"]),
   ("patio", ["deck", "terrace"]),
   ("deck", ["patio", "terrace"]),
   ("basement", ["downstairs"]),
   ("upstairs", ["second floor", "upper floor"]),
   ("downstairs", ["first floor", "ground floor", "basement"])]

/-- Split on runs of whitespace, as JavaScript `split(/\s+/)` does: a run of
whitespace is one separator, and leading/trailing separators produce empty
pieces.  The `inRun` flag records whether the previous character was
whitespace. -/
def splitWsGo : Bool → List Char → List Char → List String
  | _, [], acc => [String.mk acc.reverse]
  | inRun, c :: cs, acc =>
    if c.isWhitespace then
      if inRun then splitWsGo true cs acc
      else String.mk acc.reverse :: splitWsGo true cs []
    else splitWsGo false cs (c :: acc)

/-- `baseName.split(/\s+/)`. -/
def splitWs (s : String) : List String :=
  splitWsGo false s.data []

/-- Case-insensitive prefix test over character lists, modelling matching a
plain-text pattern compiled with the RegExp `i` flag. -/
def ciPrefixOf : List Char → List Char → Bool
  | [], _ => true
  | _ :: _, [] => false
  | p :: ps, c :: cs => (p.toLower == c.toLower) && ciPrefixOf ps cs

/-- Substring test over character lists (JavaScript `String.includes`). -/
def containsSubAux : List Char → List Char → Bool
  | [], n => n.isEmpty
  | c :: t, n => n.isPrefixOf (c :: t) || containsSubAux t n

/-- JavaScript `haystack.includes(needle)` (case-sensitive; the source only
calls it with both sides lowercased). -/
def strIncludes (h n : String) : Bool :=
  containsSubAux h.data n.data

/-- Replace the first case-insensitive occurrence of `p` by `r`, modelling
`s.replace(new RegExp(word, "i"), syn)` for a pattern with no regex
metacharacters. -/
def replaceFirstCIAux (p r : List Char) : List Char → List Char
  | [] => if ciPrefixOf p [] then r else []
  | c :: t =>
    if ciPrefixOf p (c :: t) then r ++ (c :: t).drop p.length
    else c :: replaceFirstCIAux p r t

/-- String-level wrapper for `replaceFirstCIAux`. -/
def replaceFirstCI (s pat repl : String) : String :=
  String.mk (replaceFirstCIAux pat.data repl.data s.data)

/-- Insertion into the suggestion accumulator, modelling `Set.add` on a
JavaScript `Set` (insertion order, exact-string dedup). -/
def addSugg (l : List String) (s : String) : List String :=
  if l.contains s then l else l ++ [s]

/-- `generateAliasSuggestions` from alias-suggestions.js. -/
def generateAliasSuggestions (baseName : String)
    (existingAliases : List String) (maxSuggestions : Nat) : List String :=
  let existingLower := existingAliases.map String.toLower
  let lowerBaseName := baseName.toLower
  let words := splitWs baseName
  let lastWord := words.getLastD ""
  let pluralLast := pluralize lastWord
  let singularLast := singularize lastWord
  let s1 : List String :=
    if pluralLast.toLower != lastWord.toLower then
      addSugg [] (String.intercalate " " (words.dropLast ++ [pluralLast]))
    else []
  let s2 :=
    if singularLast.toLower != lastWord.toLower then
      addSugg s1 (String.intercalate " " (words.dropLast ++ [singularLast]))
    else s1
  let s3 := WORD_SYNONYMS.foldl (fun acc ws =>
    if strIncludes lowerBaseName ws.1 then
      ws.2.foldl (fun acc2 syn => addSugg acc2 (replaceFirstCI baseName ws.1 syn)) acc
    else acc) s2
  let s4 := ROOM_ALTERNATIVES.foldl (fun acc ra =>
    if strIncludes lowerBaseName ra.1 then
      ra.2.foldl (fun acc2 alt => addSugg acc2 (replaceFirstCI baseName ra.1 alt)) acc
    else acc) s3
  let s5 :=
    if !(lowerBaseName.startsWith "the ") then addSugg s4 ("the " ++ baseName)
    else addSugg s4 (baseName.drop 4)
  let filtered := s5.filter fun s =>
    (s.toLower != lowerBaseName) && !(existingLower.contains s.toLower)
  filtered.take maxSuggestions

/-- JavaScript `a || b` for optional strings (`""` is falsy). -/
def strOr (a : Option String) (b : String) : String :=
  match a with
  | some s => if s = "" then b else s
  | none => b

/-- `entityId.split(".")[1].replace(/_/g, " ")`.  (The JavaScript would
throw on an identifier without a dot; the model returns the empty string
there instead.) -/
def fallbackEntityName (entityId : String) : String :=
  ((entityId.splitOn ".").getD 1 "").replace "_" " "

/-- `existingConfig.aliases && existingConfig.aliases.length > 0`. -/
def hasConfiguredAliases (ec : EntityConfig) : Bool :=
  match ec.aliases with
  | some l => l.length > 0
  | none => false

/-- The body of the loop in `_applyAutoAliases` for one exposed entity id,
acting on the accumulated config. -/
def autoAliasStep (ents : List Entity) (cfg : Config) (entityId : String) :
    Config :=
  let existingConfig := (cfg.entity_config entityId).getD ⟨none, none, none⟩
  if hasConfiguredAliases existingConfig then cfg
  else
    match ents.find? fun e => e.entity_id == entityId with
    | none => cfg
    | some entity =>
      let baseName :=
        strOr existingConfig.name (strOr entity.name (fallbackEntityName entityId))
      let suggestions := generateAliasSuggestions baseName [] 5
      if suggestions.length > 0 then
        { cfg with entity_config := mapSet cfg.entity_config entityId (some { existingConfig with aliases := some suggestions }) }
      else cfg

/-- `_applyAutoAliases`.  `previewExposed` models `this._preview?.exposed`
and `ents` models `this._entities`. -/
def applyAutoAliases (ents : List Entity) (previewExposed : List String)
    (config : Config) : Config :=
  if config.settings_auto_aliases = some false then config
  else if previewExposed.isEmpty then config
  else previewExposed.foldl (autoAliasStep ents) config

-- ===================================================================
-- Helper lemmas
-- ===================================================================

theorem mapSet_self {α : Type} (m : String → Option α) (k : String)
    (v : Option α) : mapSet m k v k = v := by
  simp [mapSet]

theorem mapSet_other {α : Type} (m : String → Option α) (k x : String)
    (v : Option α) (h : x ≠ k) : mapSet m k v x = m x := by
  simp [mapSet, h]

/-- `propagateStep` rewritten through its per-key effect. -/
theorem propagateStep_eq (cfg : Config) (expose : Option Bool)
    (ov : String → Option StoredOverride) (e : Entity) :
    propagateStep cfg expose ov e =
      match stepResult cfg expose e.entity_id with
      | none => ov
      | some t => mapSet ov e.entity_id t := by
  unfold propagateStep stepResult
  by_cases hf : isEntityFiltered cfg e.entity_id
  · rw [if_pos hf, if_pos hf]
  · rw [if_neg hf, if_neg hf]
    cases expose with
    | none =>
      dsimp only
      by_cases h : (getEntityOverrideInfo cfg e.entity_id).map
          OverrideInfo.source = some Source.implied
      · rw [if_pos h, if_pos h]
      · rw [if_neg h, if_neg h]
    | some x =>
      dsimp only
      by_cases h : getEntityOverrideInfo cfg e.entity_id = none ∨
          (getEntityOverrideInfo cfg e.entity_id).map
            OverrideInfo.source = some Source.implied
      · rw [if_pos h, if_pos h]
      · rw [if_neg h, if_neg h]

theorem propagateStep_at_other (cfg : Config) (expose : Option Bool)
    (ov : String → Option StoredOverride) (e : Entity) (k : String)
    (h : e.entity_id ≠ k) : propagateStep cfg expose ov e k = ov k := by
  rw [propagateStep_eq]
  cases hs : stepResult cfg expose e.entity_id with
  | none => rfl
  | some t => exact mapSet_other ov e.entity_id k t (fun hk => h hk.symm)

theorem foldPropagate_at_skip (cfg : Config) (expose : Option Bool)
    (k : String) (h : stepResult cfg expose k = none) :
    ∀ (l : List Entity) (ov : String → Option StoredOverride),
      (l.foldl (propagateStep cfg expose) ov) k = ov k := by
  intro l
  induction l with
  | nil => intro ov; rfl
  | cons e rest ih =>
    intro ov
    rw [List.foldl_cons, ih]
    by_cases he : e.entity_id = k
    · rw [propagateStep_eq, he, h]
    · exact propagateStep_at_other cfg expose ov e k he

theorem foldPropagate_at_absent (cfg : Config) (expose : Option Bool)
    (k : String) :
    ∀ (l : List Entity) (ov : String → Option StoredOverride),
      (∀ e ∈ l, e.entity_id ≠ k) →
      (l.foldl (propagateStep cfg expose) ov) k = ov k := by
  intro l
  induction l with
  | nil => intro ov _; rfl
  | cons e rest ih =>
    intro ov hk
    rw [List.foldl_cons, ih _ (fun e' he' => hk e' (List.mem_cons_of_mem e he'))]
    exact propagateStep_at_other cfg expose ov e k (hk e (List.mem_cons_self e rest))

theorem foldPropagate_keep (cfg : Config) (expose : Option Bool)
    (k : String) (t : Option StoredOverride)
    (h : stepResult cfg expose k = some t) :
    ∀ (l : List Entity) (ov : String → Option StoredOverride),
      ov k = t → (l.foldl (propagateStep cfg expose) ov) k = t := by
  intro l
  induction l with
  | nil => intro ov hov; exact hov
  | cons e rest ih =>
    intro ov hov
    rw [List.foldl_cons]
    apply ih
    by_cases he : e.entity_id = k
    · rw [propagateStep_eq, he, h]
      exact mapSet_self ov k t
    · rw [propagateStep_at_other cfg expose ov e k he]; exact hov

theorem foldPropagate_hit (cfg : Config) (expose : Option Bool)
    (k : String) (t : Option StoredOverride)
    (h : stepResult cfg expose k = some t) :
    ∀ (l : List Entity) (ov : String → Option StoredOverride),
      (∃ e ∈ l, e.entity_id = k) →
      (l.foldl (propagateStep cfg expose) ov) k = t := by
  intro l
  induction l with
  | nil => intro ov hmem; exact absurd hmem (by simp)
  | cons e rest ih =>
    intro ov hmem
    rw [List.foldl_cons]
    by_cases he : e.entity_id = k
    · apply foldPropagate_keep cfg expose k t h
      rw [propagateStep_eq, he, h]
      exact mapSet_self ov k t
    · rcases hmem with ⟨e', he', hk⟩
      rcases List.mem_cons.mp he' with h1 | h2
      · exact absurd (h1 ▸ hk) he
      · exact ih (propagateStep cfg expose ov e) ⟨e', h2, hk⟩

/-- A normalized-`selected` entity is skipped by the propagation loop. -/
theorem stepResult_of_selected (cfg : Config) (expose : Option Bool)
    (k : String) (info : OverrideInfo)
    (h : getEntityOverrideInfo cfg k = some info)
    (hs : info.source = Source.selected) :
    stepResult cfg expose k = none := by
  unfold stepResult
  by_cases hfb : isEntityFiltered cfg k
  · rw [if_pos hfb]
  · rw [if_neg hfb]
    cases expose with
    | none => dsimp only; rw [if_neg (by simp [h, hs])]
    | some x => dsimp only; rw [if_neg (by simp [h, hs])]

theorem stepResult_none_implied (cfg : Config) (k : String)
    (hf : isEntityFiltered cfg k = false)
    (h : (getEntityOverrideInfo cfg k).map OverrideInfo.source
      = some Source.implied) :
    stepResult cfg none k = some none := by
  unfold stepResult
  rw [if_neg (by simp [hf])]
  dsimp only
  rw [if_pos h]

theorem stepResult_some_writes (cfg : Config) (x : Bool) (k : String)
    (hf : isEntityFiltered cfg k = false)
    (h : getEntityOverrideInfo cfg k = none ∨
      (getEntityOverrideInfo cfg k).map OverrideInfo.source
        = some Source.implied) :
    stepResult cfg (some x) k
      = some (some (StoredOverride.obj x (some Source.implied))) := by
  unfold stepResult
  rw [if_neg (by simp [hf])]
  dsimp only
  rw [if_pos h]

/-- `_recalculateDeviceState` only ever rewrites the device override map. -/
theorem recalc_shape (ents : List Entity) (cfg : Config) (d : String) :
    ∃ m, recalculateDeviceState ents cfg d = { cfg with device_overrides := m } := by
  unfold recalculateDeviceState
  dsimp only
  split
  · exact ⟨cfg.device_overrides, rfl⟩
  · split
    · exact ⟨cfg.device_overrides, rfl⟩
    · split
      · exact ⟨_, rfl⟩
      · split
        · exact ⟨_, rfl⟩
        · exact ⟨cfg.device_overrides, rfl⟩

theorem recalc_entity_overrides (ents : List Entity) (cfg : Config) (d : String) :
    (recalculateDeviceState ents cfg d).entity_overrides = cfg.entity_overrides := by
  obtain ⟨m, hm⟩ := recalc_shape ents cfg d
  rw [hm]

theorem recalc_filtered_entities (ents : List Entity) (cfg : Config) (d : String) :
    (recalculateDeviceState ents cfg d).filtered_entities = cfg.filtered_entities := by
  obtain ⟨m, hm⟩ := recalc_shape ents cfg d
  rw [hm]

theorem recalc_dev_other (ents : List Entity) (cfg : Config) (d d' : String)
    (h : d' ≠ d) :
    (recalculateDeviceState ents cfg d).device_overrides d'
      = cfg.device_overrides d' := by
  unfold recalculateDeviceState
  dsimp only
  split
  · rfl
  · split
    · rfl
    · split
      · exact mapSet_other cfg.device_overrides d d' _ h
      · split
        · exact mapSet_other cfg.device_overrides d d' _ h
        · rfl

/-- A device whose normalized override is `selected` is never touched by
`_recalculateDeviceState`. -/
theorem recalc_selected (ents : List Entity) (cfg : Config) (d : String)
    (hsel : (getDeviceOverrideInfo cfg d).map OverrideInfo.source
      = some Source.selected) :
    recalculateDeviceState ents cfg d = cfg := by
  unfold recalculateDeviceState
  dsimp only
  split
  · rfl
  · rfl

/-- A device with no non-filtered owned entities is never touched by
`_recalculateDeviceState`. -/
theorem recalc_empty_active (ents : List Entity) (cfg : Config) (d : String)
    (h : activeEntitiesOf ents cfg d = []) :
    recalculateDeviceState ents cfg d = cfg := by
  unfold recalculateDeviceState
  dsimp only
  rw [if_pos h]

/-- Completeness of the scan with a seeded accumulator. -/
theorem scanSelected_complete_acc (cfg : Config) (v : Bool) :
    ∀ l : List Entity,
      (∀ e ∈ l, getEntityOverrideInfo cfg e.entity_id
          = some ⟨v, Source.selected⟩) →
      scanSelected cfg l (some v) = some v := by
  intro l
  induction l with
  | nil => intro _; rfl
  | cons e rest ih =>
    intro hall
    have he := hall e (List.mem_cons_self e rest)
    simp only [scanSelected, he]
    exact ih fun e' he' => hall e' (List.mem_cons_of_mem e he')

/-- If every non-filtered owned entity is normalized `selected(v)` (and
there is at least one), the scan returns `some v`. -/
theorem scanSelected_complete (cfg : Config) (l : List Entity) (v : Bool)
    (hne : l ≠ [])
    (hall : ∀ e ∈ l, getEntityOverrideInfo cfg e.entity_id
        = some ⟨v, Source.selected⟩) :
    scanSelected cfg l none = some v := by
  cases l with
  | nil => exact absurd rfl hne
  | cons e rest =>
    have he := hall e (List.mem_cons_self e rest)
    simp only [scanSelected, he]
    exact scanSelected_complete_acc cfg v rest
      fun e' he' => hall e' (List.mem_cons_of_mem e he')

/-- Soundness of the scan with a seeded accumulator. -/
theorem scanSelected_sound_acc (cfg : Config) (w : Bool) :
    ∀ (l : List Entity) (v : Bool),
      scanSelected cfg l (some w) = some v →
      v = w ∧ ∀ e ∈ l, getEntityOverrideInfo cfg e.entity_id
          = some ⟨w, Source.selected⟩ := by
  intro l
  induction l with
  | nil =>
    intro v h
    refine ⟨(Option.some.inj h).symm, ?_⟩
    intro e he
    exact absurd he (List.not_mem_nil e)
  | cons e rest ih =>
    intro v h
    rw [scanSelected] at h
    cases hinfo : getEntityOverrideInfo cfg e.entity_id with
    | none => rw [hinfo] at h; cases h
    | some info =>
      obtain ⟨b, s⟩ := info
      rw [hinfo] at h
      dsimp only at h
      by_cases hs : s = Source.selected
      · rw [if_pos hs] at h
        by_cases hbw : b = w
        · rw [if_pos hbw] at h
          obtain ⟨hvw, hrest⟩ := ih v h
          subst hs hbw
          exact ⟨hvw, by
            intro e' he'
            rcases List.mem_cons.mp he' with h1 | h2
            · rw [h1]; exact hinfo
            · exact hrest e' h2⟩
        · rw [if_neg hbw] at h; cases h
      · rw [if_neg hs] at h; cases h

/-- If the scan (seeded with `none`, as in the source) returns `some v`,
every scanned entity is normalized `selected(v)`. -/
theorem scanSelected_sound (cfg : Config) (l : List Entity) (v : Bool)
    (h : scanSelected cfg l none = some v) :
    ∀ e ∈ l, getEntityOverrideInfo cfg e.entity_id
      = some ⟨v, Source.selected⟩ := by
  cases l with
  | nil => intro e he; exact absurd he (List.not_mem_nil e)
  | cons e rest =>
    rw [scanSelected] at h
    cases hinfo : getEntityOverrideInfo cfg e.entity_id with
    | none => rw [hinfo] at h; cases h
    | some info =>
      obtain ⟨b, s⟩ := info
      rw [hinfo] at h
      dsimp only at h
      by_cases hs : s = Source.selected
      · rw [if_pos hs] at h
        obtain ⟨hvb, hrest⟩ := scanSelected_sound_acc cfg b rest v h
        subst hs hvb
        intro e' he'
        rcases List.mem_cons.mp he' with h1 | h2
        · rw [h1]; exact hinfo
        · exact hrest e' h2
      · rw [if_neg hs] at h; cases h

/-- `_setEntityOverride` writes the entity override map only at its own
entity id (before recalculation, which touches only device overrides). -/
theorem setEntityOverride_entity_overrides (ents : List Entity) (cfg : Config)
    (eid : String) (exp : Option Bool) (src : Source) :
    (setEntityOverride ents cfg eid exp src).entity_overrides
      = mapSet cfg.entity_overrides eid
          (exp.map fun x => StoredOverride.obj x (some src)) := by
  unfold setEntityOverride
  dsimp only
  cases hfind : (ents.find? fun e => e.entity_id == eid).bind Entity.device_id with
  | none => rfl
  | some did => exact recalc_entity_overrides ents _ did

theorem setEntityOverride_filtered_entities (ents : List Entity) (cfg : Config)
    (eid : String) (exp : Option Bool) (src : Source) :
    (setEntityOverride ents cfg eid exp src).filtered_entities
      = cfg.filtered_entities := by
  unfold setEntityOverride
  dsimp only
  cases hfind : (ents.find? fun e => e.entity_id == eid).bind Entity.device_id with
  | none => rfl
  | some did => exact recalc_filtered_entities ents _ did

/-- `_setEntityOverride` leaves the device override of every device other
than the owning device of the clicked entity unchanged. -/
theorem setEntityOverride_dev_frame (ents : List Entity) (cfg : Config)
    (eid : String) (exp : Option Bool) (src : Source) (d : String)
    (hnot : (ents.find? fun e => e.entity_id == eid).bind Entity.device_id
      ≠ some d) :
    (setEntityOverride ents cfg eid exp src).device_overrides d
      = cfg.device_overrides d := by
  unfold setEntityOverride
  dsimp only
  cases hfind : (ents.find? fun e => e.entity_id == eid).bind Entity.device_id with
  | none => rfl
  | some did =>
    exact recalc_dev_other ents _ did d fun hd => hnot (by rw [hfind, hd])

/-- `_setEntityOverride` leaves the device override of a device whose
normalized override is `selected` unchanged (recalculation skips it). -/
theorem setEntityOverride_dev_selected (ents : List Entity) (cfg : Config)
    (eid : String) (exp : Option Bool) (src : Source) (d : String)
    (hsel : (getDeviceOverrideInfo cfg d).map OverrideInfo.source
      = some Source.selected) :
    (setEntityOverride ents cfg eid exp src).device_overrides d
      = cfg.device_overrides d := by
  unfold setEntityOverride
  dsimp only
  cases hfind : (ents.find? fun e => e.entity_id == eid).bind Entity.device_id with
  | none => rfl
  | some did =>
    dsimp only
    by_cases hdd : d = did
    · subst hdd
      have hsel1 : (getDeviceOverrideInfo
          { cfg with entity_overrides := mapSet cfg.entity_overrides eid (exp.map (fun x => StoredOverride.obj x (some src))) } d).map
            OverrideInfo.source = some Source.selected := hsel
      rw [recalc_selected ents _ d hsel1]
    · rw [recalc_dev_other ents _ did d hdd]

/-- `_setDeviceOverride` rewrites the device override map exactly at its own
device id (propagation touches only entity overrides). -/
theorem setDeviceOverride_dev (ents : List Entity) (cfg : Config)
    (did : String) (exp : Option Bool) (src : Source) :
    (setDeviceOverride ents cfg did exp src).device_overrides
      = mapSet cfg.device_overrides did
          (exp.map fun x => StoredOverride.obj x (some src)) := rfl

/-- `_setDeviceOverride` rewrites the entity override map by folding the
propagation step over the entities of the device; the config the step reads
normalization and filtering from differs from the original only in its
device override map, so the step is the one for the original config. -/
theorem setDeviceOverride_entity_overrides (ents : List Entity) (cfg : Config)
    (did : String) (exp : Option Bool) (src : Source) :
    (setDeviceOverride ents cfg did exp src).entity_overrides
      = (deviceEntitiesOf ents did).foldl
          (propagateStep cfg exp) cfg.entity_overrides := rfl

/-- A single user edit never changes the stored override of an entity whose
normalized override is `selected`, unless the edit is an entity click on
that exact entity. -/
theorem actionStep_entity_frame (ents : List Entity) (cfg : Config)
    (a : Action) (eid : String) (info : OverrideInfo)
    (hov : getEntityOverrideInfo cfg eid = some info)
    (hsel : info.source = Source.selected)
    (hne : ∀ v, a ≠ Action.entityClick eid v) :
    (applyAction ents cfg a).entity_overrides eid
      = cfg.entity_overrides eid := by
  cases a with
  | entityClick e' v =>
    have hne' : e' ≠ eid := fun h => hne v (by rw [h])
    unfold applyAction handleEntityButtonClick
    dsimp only
    split
    · rw [setEntityOverride_entity_overrides]
      exact mapSet_other cfg.entity_overrides e' eid _ fun h => hne' h.symm
    · rw [setEntityOverride_entity_overrides]
      exact mapSet_other cfg.entity_overrides e' eid _ fun h => hne' h.symm
  | deviceClick d v =>
    have hskip : ∀ exp, stepResult cfg exp eid = none := fun exp =>
      stepResult_of_selected cfg exp eid info hov hsel
    unfold applyAction handleDeviceButtonClick
    dsimp only
    split
    · rw [setDeviceOverride_entity_overrides]
      exact foldPropagate_at_skip cfg none eid (hskip none) _ cfg.entity_overrides
    · rw [setDeviceOverride_entity_overrides]
      exact foldPropagate_at_skip cfg (some v) eid (hskip (some v)) _
        cfg.entity_overrides

/-- A single user edit never changes the stored override of a device whose
normalized override is `selected`, unless the edit is a device click on that
exact device. -/
theorem actionStep_dev_frame (ents : List Entity) (cfg : Config)
    (a : Action) (did : String) (info : OverrideInfo)
    (hov : getDeviceOverrideInfo cfg did = some info)
    (hsel : info.source = Source.selected)
    (hne : ∀ v, a ≠ Action.deviceClick did v) :
    (applyAction ents cfg a).device_overrides did
      = cfg.device_overrides did := by
  have hmap : (getDeviceOverrideInfo cfg did).map OverrideInfo.source
      = some Source.selected := by rw [hov, Option.map_some', hsel]
  cases a with
  | entityClick e v =>
    unfold applyAction handleEntityButtonClick
    dsimp only
    split
    · exact setEntityOverride_dev_selected ents cfg e none Source.selected did hmap
    · exact setEntityOverride_dev_selected ents cfg e (some v) Source.selected
        did hmap
  | deviceClick d' v =>
    have hne' : d' ≠ did := fun h => hne v (by rw [h])
    unfold applyAction handleDeviceButtonClick
    dsimp only
    split
    · rw [setDeviceOverride_dev]
      exact mapSet_other cfg.device_overrides d' did _ fun h => hne' h.symm
    · rw [setDeviceOverride_dev]
      exact mapSet_other cfg.device_overrides d' did _ fun h => hne' h.symm

/-- Sequence version of `actionStep_entity_frame`, by induction over the
edit sequence. -/
theorem seq_entity_frame (ents : List Entity) (eid : String) :
    ∀ (acts : List Action) (cfg : Config) (info : OverrideInfo),
      getEntityOverrideInfo cfg eid = some info →
      info.source = Source.selected →
      (∀ a ∈ acts, ∀ v, a ≠ Action.entityClick eid v) →
      (applyActions ents cfg acts).entity_overrides eid
        = cfg.entity_overrides eid := by
  intro acts
  induction acts with
  | nil => intro cfg info _ _ _; rfl
  | cons a rest ih =>
    intro cfg info hov hsel hne
    have hstep := actionStep_entity_frame ents cfg a eid info hov hsel
      fun v => hne a (List.mem_cons_self a rest) v
    have hov' : getEntityOverrideInfo (applyAction ents cfg a) eid = some info := by
      unfold getEntityOverrideInfo at hov ⊢
      rw [hstep]
      exact hov
    calc (applyActions ents cfg (a :: rest)).entity_overrides eid
        = (applyActions ents (applyAction ents cfg a) rest).entity_overrides eid := rfl
      _ = (applyAction ents cfg a).entity_overrides eid :=
          ih (applyAction ents cfg a) info hov' hsel
            fun a' ha' => hne a' (List.mem_cons_of_mem a ha')
      _ = cfg.entity_overrides eid := hstep

/-- Sequence version of `actionStep_dev_frame`, by induction over the edit
sequence. -/
theorem seq_dev_frame (ents : List Entity) (did : String) :
    ∀ (acts : List Action) (cfg : Config) (info : OverrideInfo),
      getDeviceOverrideInfo cfg did = some info →
      info.source = Source.selected →
      (∀ a ∈ acts, ∀ v, a ≠ Action.deviceClick did v) →
      (applyActions ents cfg acts).device_overrides did
        = cfg.device_overrides did := by
  intro acts
  induction acts with
  | nil => intro cfg info _ _ _; rfl
  | cons a rest ih =>
    intro cfg info hov hsel hne
    have hstep := actionStep_dev_frame ents cfg a did info hov hsel
      fun v => hne a (List.mem_cons_self a rest) v
    have hov' : getDeviceOverrideInfo (applyAction ents cfg a) did = some info := by
      unfold getDeviceOverrideInfo at hov ⊢
      rw [hstep]
      exact hov
    calc (applyActions ents cfg (a :: rest)).device_overrides did
        = (applyActions ents (applyAction ents cfg a) rest).device_overrides did := rfl
      _ = (applyAction ents cfg a).device_overrides did :=
          ih (applyAction ents cfg a) info hov' hsel
            fun a' ha' => hne a' (List.mem_cons_of_mem a ha')
      _ = cfg.device_overrides did := hstep

/-- The condition of the two button-click handlers, normalized. -/
theorem clickCond_iff (cur : Option OverrideInfo) (x : Bool) :
    (cur.map OverrideInfo.expose = some x ∧
      cur.map OverrideInfo.source = some Source.selected)
      ↔ cur = some ⟨x, Source.selected⟩ := by
  cases cur with
  | none => simp
  | some info =>
    obtain ⟨b, s⟩ := info
    simp [OverrideInfo.mk.injEq, and_comm]

/-- Evaluation of `_recalculateDeviceState` in the branch that writes the
implied device override. -/
theorem recalc_eval_write (ents : List Entity) (cfg : Config) (d : String)
    (v : Bool) (hne : activeEntitiesOf ents cfg d ≠ [])
    (hnsel : ¬(getDeviceOverrideInfo cfg d).map OverrideInfo.source
      = some Source.selected)
    (hscan : scanSelected cfg (activeEntitiesOf ents cfg d) none = some v) :
    recalculateDeviceState ents cfg d
      = { cfg with device_overrides := mapSet cfg.device_overrides d (some (StoredOverride.obj v (some Source.implied))) } := by
  unfold recalculateDeviceState
  dsimp only
  rw [if_neg hne, if_neg hnsel, hscan]

/-- Evaluation of `_recalculateDeviceState` in the branch that deletes an
implied device override. -/
theorem recalc_eval_clear (ents : List Entity) (cfg : Config) (d : String)
    (hne : activeEntitiesOf ents cfg d ≠ [])
    (hnsel : ¬(getDeviceOverrideInfo cfg d).map OverrideInfo.source
      = some Source.selected)
    (hscan : scanSelected cfg (activeEntitiesOf ents cfg d) none = none)
    (himp : (getDeviceOverrideInfo cfg d).map OverrideInfo.source
      = some Source.implied) :
    recalculateDeviceState ents cfg d
      = { cfg with device_overrides := mapSet cfg.device_overrides d none } := by
  unfold recalculateDeviceState
  dsimp only
  rw [if_neg hne, if_neg hnsel, hscan]
  dsimp only
  rw [if_pos himp]

/-- Evaluation of `_recalculateDeviceState` in the branch that leaves the
config unchanged (scan failed, device not implied). -/
theorem recalc_eval_keep (ents : List Entity) (cfg : Config) (d : String)
    (hne : activeEntitiesOf ents cfg d ≠ [])
    (hnsel : ¬(getDeviceOverrideInfo cfg d).map OverrideInfo.source
      = some Source.selected)
    (hscan : scanSelected cfg (activeEntitiesOf ents cfg d) none = none)
    (hnimp : ¬(getDeviceOverrideInfo cfg d).map OverrideInfo.source
      = some Source.implied) :
    recalculateDeviceState ents cfg d = cfg := by
  unfold recalculateDeviceState
  dsimp only
  rw [if_neg hne, if_neg hnsel, hscan]
  dsimp only
  rw [if_neg hnimp]

/-- `_setEntityOverride` leaves the device override of a device with no
non-filtered owned entities unchanged. -/
theorem setEntityOverride_dev_empty (ents : List Entity) (cfg : Config)
    (eid : String) (exp : Option Bool) (src : Source) (did : String)
    (h : activeEntitiesOf ents cfg did = []) :
    (setEntityOverride ents cfg eid exp src).device_overrides did
      = cfg.device_overrides did := by
  unfold setEntityOverride
  dsimp only
  cases hfind : (ents.find? fun e => e.entity_id == eid).bind Entity.device_id with
  | none => rfl
  | some d0 =>
    dsimp only
    by_cases hdd : d0 = did
    · subst hdd
      have h1 : activeEntitiesOf ents { cfg with entity_overrides := mapSet cfg.entity_overrides eid (exp.map (fun x => StoredOverride.obj x (some src))) } d0 = [] := h
      rw [recalc_empty_active ents _ d0 h1]
    · rw [recalc_dev_other ents _ d0 did fun hx => hdd hx.symm]

/-- `scanSelected` ignores the `filtered_devices` field of the config. -/
theorem scan_withFd (cfg : Config) (fd : List String) :
    ∀ (l : List Entity) (acc : Option Bool),
      scanSelected { cfg with filtered_devices := fd } l acc
        = scanSelected cfg l acc := by
  intro l
  induction l with
  | nil => intro acc; rfl
  | cons e rest ih =>
    intro acc
    simp only [scanSelected]
    have hg : getEntityOverrideInfo { cfg with filtered_devices := fd } e.entity_id = getEntityOverrideInfo cfg e.entity_id := rfl
    rw [hg]
    cases getEntityOverrideInfo cfg e.entity_id with
    | none => rfl
    | some info =>
      dsimp only
      by_cases hs : info.source = Source.selected
      · rw [if_pos hs, if_pos hs]
        cases acc with
        | none => exact ih _
        | some v =>
          dsimp only
          by_cases hbv : info.expose = v
          · rw [if_pos hbv, if_pos hbv]
            exact ih _
          · rw [if_neg hbv, if_neg hbv]
      · rw [if_neg hs, if_neg hs]

/-- `_recalculateDeviceState` ignores the `filtered_devices` field: a
filtered device is recalculated exactly like an unfiltered one. -/
theorem recalc_withFd (ents : List Entity) (cfg : Config) (d : String)
    (fd : List String) :
    recalculateDeviceState ents { cfg with filtered_devices := fd } d
      = { recalculateDeviceState ents cfg d with filtered_devices := fd } := by
  by_cases h1 : activeEntitiesOf ents cfg d = []
  · have h1f : activeEntitiesOf ents { cfg with filtered_devices := fd } d = [] := h1
    rw [recalc_empty_active ents _ d h1f, recalc_empty_active ents cfg d h1]
  · have h1f : activeEntitiesOf ents { cfg with filtered_devices := fd } d ≠ [] := h1
    by_cases h2 : (getDeviceOverrideInfo cfg d).map OverrideInfo.source
        = some Source.selected
    · have h2f : (getDeviceOverrideInfo { cfg with filtered_devices := fd } d).map OverrideInfo.source = some Source.selected := h2
      rw [recalc_selected ents _ d h2f, recalc_selected ents cfg d h2]
    · have h2f : ¬(getDeviceOverrideInfo { cfg with filtered_devices := fd } d).map OverrideInfo.source = some Source.selected := h2
      cases hscan : scanSelected cfg (activeEntitiesOf ents cfg d) none with
      | some v =>
        have hscanf : scanSelected { cfg with filtered_devices := fd } (activeEntitiesOf ents { cfg with filtered_devices := fd } d) none = some v := by
          rw [scan_withFd]
          exact hscan
        rw [recalc_eval_write ents _ d v h1f h2f hscanf,
          recalc_eval_write ents cfg d v h1 h2 hscan]
      | none =>
        have hscanf : scanSelected { cfg with filtered_devices := fd } (activeEntitiesOf ents { cfg with filtered_devices := fd } d) none = none := by
          rw [scan_withFd]
          exact hscan
        by_cases h3 : (getDeviceOverrideInfo cfg d).map OverrideInfo.source
            = some Source.implied
        · have h3f : (getDeviceOverrideInfo { cfg with filtered_devices := fd } d).map OverrideInfo.source = some Source.implied := h3
          rw [recalc_eval_clear ents _ d h1f h2f hscanf h3f,
            recalc_eval_clear ents cfg d h1 h2 hscan h3]
        · have h3f : ¬(getDeviceOverrideInfo { cfg with filtered_devices := fd } d).map OverrideInfo.source = some Source.implied := h3
          rw [recalc_eval_keep ents _ d h1f h2f hscanf h3f,
            recalc_eval_keep ents cfg d h1 h2 hscan h3]

/-- `_setEntityOverride` ignores the `filtered_devices` field. -/
theorem setEntityOverride_withFd (ents : List Entity) (cfg : Config)
    (fd : List String) (eid : String) (exp : Option Bool) (src : Source) :
    setEntityOverride ents { cfg with filtered_devices := fd } eid exp src
      = { setEntityOverride ents cfg eid exp src with filtered_devices := fd } := by
  unfold setEntityOverride
  dsimp only
  cases hfind : (ents.find? fun e => e.entity_id == eid).bind Entity.device_id with
  | none => rfl
  | some d0 =>
    dsimp only
    exact recalc_withFd ents { cfg with entity_overrides := mapSet cfg.entity_overrides eid (exp.map (fun x => StoredOverride.obj x (some src))) } d0 fd

/-- `_setDeviceOverride` ignores the `filtered_devices` field. -/
theorem setDeviceOverride_withFd (ents : List Entity) (cfg : Config)
    (fd : List String) (did : String) (exp : Option Bool) (src : Source) :
    setDeviceOverride ents { cfg with filtered_devices := fd } did exp src
      = { setDeviceOverride ents cfg did exp src with filtered_devices := fd } := rfl

/-- `_handleEntityButtonClick` ignores the `filtered_devices` field. -/
theorem handleEntity_withFd (ents : List Entity) (cfg : Config)
    (fd : List String) (eid : String) (x : Bool) :
    handleEntityButtonClick ents { cfg with filtered_devices := fd } eid x
      = { handleEntityButtonClick ents cfg eid x with filtered_devices := fd } := by
  unfold handleEntityButtonClick
  dsimp only
  by_cases hc : (getEntityOverrideInfo cfg eid).map OverrideInfo.expose
      = some x ∧ (getEntityOverrideInfo cfg eid).map OverrideInfo.source
      = some Source.selected
  · have hcf : (getEntityOverrideInfo { cfg with filtered_devices := fd } eid).map OverrideInfo.expose = some x ∧ (getEntityOverrideInfo { cfg with filtered_devices := fd } eid).map OverrideInfo.source = some Source.selected := hc
    rw [if_pos hcf, if_pos hc]
    exact setEntityOverride_withFd ents cfg fd eid none Source.selected
  · have hcf : ¬((getEntityOverrideInfo { cfg with filtered_devices := fd } eid).map OverrideInfo.expose = some x ∧ (getEntityOverrideInfo { cfg with filtered_devices := fd } eid).map OverrideInfo.source = some Source.selected) := hc
    rw [if_neg hcf, if_neg hc]
    exact setEntityOverride_withFd ents cfg fd eid (some x) Source.selected

/-- `_handleDeviceButtonClick` ignores the `filtered_devices` field. -/
theorem handleDevice_withFd (ents : List Entity) (cfg : Config)
    (fd : List String) (did : String) (x : Bool) :
    handleDeviceButtonClick ents { cfg with filtered_devices := fd } did x
      = { handleDeviceButtonClick ents cfg did x with filtered_devices := fd } := by
  unfold handleDeviceButtonClick
  dsimp only
  by_cases hc : (getDeviceOverrideInfo cfg did).map OverrideInfo.expose
      = some x ∧ (getDeviceOverrideInfo cfg did).map OverrideInfo.source
      = some Source.selected
  · have hcf : (getDeviceOverrideInfo { cfg with filtered_devices := fd } did).map OverrideInfo.expose = some x ∧ (getDeviceOverrideInfo { cfg with filtered_devices := fd } did).map OverrideInfo.source = some Source.selected := hc
    rw [if_pos hcf, if_pos hc]
    exact setDeviceOverride_withFd ents cfg fd did none Source.selected
  · have hcf : ¬((getDeviceOverrideInfo { cfg with filtered_devices := fd } did).map OverrideInfo.expose = some x ∧ (getDeviceOverrideInfo { cfg with filtered_devices := fd } did).map OverrideInfo.source = some Source.selected) := hc
    rw [if_neg hcf, if_neg hc]
    exact setDeviceOverride_withFd ents cfg fd did (some x) Source.selected

/-- Every user edit ignores the `filtered_devices` field. -/
theorem applyAction_withFd (ents : List Entity) (cfg : Config)
    (fd : List String) (a : Action) :
    applyAction ents { cfg with filtered_devices := fd } a
      = { applyAction ents cfg a with filtered_devices := fd } := by
  cases a with
  | entityClick e x => exact handleEntity_withFd ents cfg fd e x
  | deviceClick d x => exact handleDevice_withFd ents cfg fd d x

/-- `generateAliasSuggestions` returns at most `maxSuggestions` aliases. -/
theorem gen_le (b : String) (ex : List String) (m : Nat) :
    (generateAliasSuggestions b ex m).length ≤ m := by
  unfold generateAliasSuggestions
  dsimp only
  exact List.length_take_le m _

/-- One `_applyAutoAliases` loop iteration leaves every other key of the
entity-config map unchanged. -/
theorem autoAliasStep_other (ents : List Entity) (cfg : Config)
    (eid k : String) (h : k ≠ eid) :
    (autoAliasStep ents cfg eid).entity_config k = cfg.entity_config k := by
  unfold autoAliasStep
  dsimp only
  by_cases hal : hasConfiguredAliases
      ((cfg.entity_config eid).getD ⟨none, none, none⟩)
  · rw [if_pos hal]
  · rw [if_neg hal]
    cases hfind : ents.find? fun e => e.entity_id == eid with
    | none => rfl
    | some entity =>
      dsimp only
      split
      · exact mapSet_other cfg.entity_config eid k _ h
      · rfl

/-- One `_applyAutoAliases` loop iteration either leaves the config
unchanged or, when the entry has no configured aliases, rewrites exactly its
own key with between one and five generated aliases. -/
theorem autoAliasStep_cases (ents : List Entity) (cfg : Config)
    (eid : String) :
    autoAliasStep ents cfg eid = cfg ∨
    (hasConfiguredAliases ((cfg.entity_config eid).getD ⟨none, none, none⟩)
        = false ∧
      ∃ sugg : List String, 0 < sugg.length ∧ sugg.length ≤ 5 ∧
        autoAliasStep ents cfg eid = { cfg with entity_config := mapSet cfg.entity_config eid (some { (cfg.entity_config eid).getD ⟨none, none, none⟩ with aliases := some sugg }) }) := by
  unfold autoAliasStep
  dsimp only
  by_cases hal : hasConfiguredAliases
      ((cfg.entity_config eid).getD ⟨none, none, none⟩)
  · rw [if_pos hal]
    exact Or.inl rfl
  · rw [if_neg hal]
    cases hfind : ents.find? fun e => e.entity_id == eid with
    | none => exact Or.inl rfl
    | some entity =>
      dsimp only
      by_cases hlen : (generateAliasSuggestions
          (strOr ((cfg.entity_config eid).getD ⟨none, none, none⟩).name
            (strOr entity.name (fallbackEntityName eid))) [] 5).length > 0
      · rw [if_pos hlen]
        exact Or.inr ⟨by simpa using hal, _, hlen, gen_le _ [] 5, rfl⟩
      · rw [if_neg hlen]
        exact Or.inl rfl

/-- Invariant of the `_applyAutoAliases` fold: every entity-config entry is
either the original one, or (for an exposed id whose original entry had no
configured aliases) the original entry with one to five generated aliases
written into it. -/
theorem autoAlias_fold_inv (ents : List Entity) (cfg0 : Config)
    (pv : List String) :
    ∀ (l : List String) (cfg : Config),
      (∀ k ∈ l, k ∈ pv) →
      (∀ k, cfg.entity_config k = cfg0.entity_config k ∨
        (k ∈ pv ∧
          hasConfiguredAliases ((cfg0.entity_config k).getD ⟨none, none, none⟩)
            = false ∧
          ∃ sugg : List String, 0 < sugg.length ∧ sugg.length ≤ 5 ∧
            cfg.entity_config k = some { (cfg0.entity_config k).getD ⟨none, none, none⟩ with aliases := some sugg })) →
      ∀ k, (l.foldl (autoAliasStep ents) cfg).entity_config k
          = cfg0.entity_config k ∨
        (k ∈ pv ∧
          hasConfiguredAliases ((cfg0.entity_config k).getD ⟨none, none, none⟩)
            = false ∧
          ∃ sugg : List String, 0 < sugg.length ∧ sugg.length ≤ 5 ∧
            (l.foldl (autoAliasStep ents) cfg).entity_config k = some { (cfg0.entity_config k).getD ⟨none, none, none⟩ with aliases := some sugg }) := by
  intro l
  induction l with
  | nil => intro cfg _ hinv k; exact hinv k
  | cons e rest ih =>
    intro cfg hsub hinv k
    rw [List.foldl_cons]
    apply ih (autoAliasStep ents cfg e)
      (fun k' hk' => hsub k' (List.mem_cons_of_mem e hk'))
    intro k'
    by_cases hke : k' = e
    · subst hke
      rcases autoAliasStep_cases ents cfg k' with hid | ⟨hal, sugg, hpos, hle, heq⟩
      · rw [hid]
        exact hinv k'
      · rw [heq]
        rcases hinv k' with h0 | ⟨_, _, sugg0, hpos0, _, heq0⟩
        · right
          refine ⟨hsub k' (List.mem_cons_self k' rest), by rw [← h0]; exact hal,
            sugg, hpos, hle, ?_⟩
          show mapSet cfg.entity_config k' (some { (cfg.entity_config k').getD ⟨none, none, none⟩ with aliases := some sugg }) k' = some { (cfg0.entity_config k').getD ⟨none, none, none⟩ with aliases := some sugg }
          rw [mapSet_self, h0]
        · exfalso
          have htrue : hasConfiguredAliases { (cfg0.entity_config k').getD ⟨none, none, none⟩ with aliases := some sugg0 } = true :=
            decide_eq_true hpos0
          rw [heq0] at hal
          cases htrue.symm.trans hal
    · rw [autoAliasStep_other ents cfg e k' hke]
      exact hinv k'

-- ===================================================================
-- Claim theorems
-- ===================================================================

/-- C1: for every sequence of entity and device override edits on a fixed
topology and fixed filtered sets, an override whose normalized source is
`selected` is never modified or removed by the propagation steps: the stored
entity override of a `selected` entity is unchanged by any edit sequence
containing no direct entity click on that entity, and the stored device
override of a `selected` device is unchanged by any edit sequence containing
no direct device click on that device. -/
theorem c1_selected_only_changed_by_direct_action (ents : List Entity)
    (cfg : Config) (acts : List Action) :
    (∀ eid info, getEntityOverrideInfo cfg eid = some info →
      info.source = Source.selected →
      (∀ a ∈ acts, ∀ v, a ≠ Action.entityClick eid v) →
      (applyActions ents cfg acts).entity_overrides eid
        = cfg.entity_overrides eid) ∧
    (∀ did info, getDeviceOverrideInfo cfg did = some info →
      info.source = Source.selected →
      (∀ a ∈ acts, ∀ v, a ≠ Action.deviceClick did v) →
      (applyActions ents cfg acts).device_overrides did
        = cfg.device_overrides did) := by
  constructor
  · intro eid info hov hsel hne
    exact seq_entity_frame ents eid acts cfg info hov hsel hne
  · intro did info hov hsel hne
    exact seq_dev_frame ents did acts cfg info hov hsel hne

/-- Witness for C1: with entity `light.e1` of device `d1` selected-expose
and entity `light.e2` unset, clicking device `d1` to exclude-all and then
clicking entity `light.e2` leaves the stored selected override of
`light.e1` unchanged. -/
theorem c1_witness :
    (applyActions sampleEntities
      { baseConfig with entity_overrides := mapSet emptyOv "light.e1" (some (StoredOverride.obj true (some Source.selected))) }
      [Action.deviceClick "d1" false, Action.entityClick "light.e2" true]).entity_overrides "light.e1"
      = mapSet emptyOv "light.e1" (some (StoredOverride.obj true (some Source.selected))) "light.e1" :=
  (c1_selected_only_changed_by_direct_action sampleEntities
    { baseConfig with entity_overrides := mapSet emptyOv "light.e1" (some (StoredOverride.obj true (some Source.selected))) }
    [Action.deviceClick "d1" false, Action.entityClick "light.e2" true]).1
    "light.e1" ⟨true, Source.selected⟩ (by decide) rfl (by decide)

/-- C4: the entity button action toggles: if the current normalized override
is `selected` with the same expose value, the stored entity override is
removed; otherwise (unset, implied, or selected with the other value) it
becomes `selected` with the clicked expose value. -/
theorem c4_entity_button_toggle (ents : List Entity) (cfg : Config)
    (eid : String) (x : Bool) :
    (getEntityOverrideInfo cfg eid = some ⟨x, Source.selected⟩ →
      (handleEntityButtonClick ents cfg eid x).entity_overrides eid = none) ∧
    (getEntityOverrideInfo cfg eid ≠ some ⟨x, Source.selected⟩ →
      (handleEntityButtonClick ents cfg eid x).entity_overrides eid
        = some (StoredOverride.obj x (some Source.selected))) := by
  constructor
  · intro h
    unfold handleEntityButtonClick
    dsimp only
    rw [if_pos ((clickCond_iff (getEntityOverrideInfo cfg eid) x).mpr h)]
    rw [setEntityOverride_entity_overrides]
    exact mapSet_self cfg.entity_overrides eid _
  · intro h
    unfold handleEntityButtonClick
    dsimp only
    rw [if_neg fun hc => h ((clickCond_iff (getEntityOverrideInfo cfg eid) x).mp hc)]
    rw [setEntityOverride_entity_overrides]
    exact mapSet_self cfg.entity_overrides eid _

/-- Witness for C4: clicking expose on `light.e1` when it is already
selected-expose removes its override, and clicking expose when it is unset
makes it selected-expose. -/
theorem c4_witness :
    (handleEntityButtonClick sampleEntities
      { baseConfig with entity_overrides := mapSet emptyOv "light.e1" (some (StoredOverride.obj true (some Source.selected))) }
      "light.e1" true).entity_overrides "light.e1" = none ∧
    (handleEntityButtonClick sampleEntities baseConfig
      "light.e1" true).entity_overrides "light.e1"
      = some (StoredOverride.obj true (some Source.selected)) :=
  ⟨(c4_entity_button_toggle sampleEntities
      { baseConfig with entity_overrides := mapSet emptyOv "light.e1" (some (StoredOverride.obj true (some Source.selected))) }
      "light.e1" true).1 (by decide),
   (c4_entity_button_toggle sampleEntities baseConfig "light.e1" true).2
      (by decide)⟩

/-- C9: an entity button action changes no stored entity override other than
the clicked entity, and no stored device override other than that of the
owning device of the clicked entity (the device the handler recalculates). -/
theorem c9_entity_edit_frame (ents : List Entity) (cfg : Config)
    (eid : String) (x : Bool) :
    (∀ e', e' ≠ eid →
      (handleEntityButtonClick ents cfg eid x).entity_overrides e'
        = cfg.entity_overrides e') ∧
    (∀ d, (ents.find? fun e => e.entity_id == eid).bind Entity.device_id
        ≠ some d →
      (handleEntityButtonClick ents cfg eid x).device_overrides d
        = cfg.device_overrides d) := by
  constructor
  · intro e' hne
    unfold handleEntityButtonClick
    dsimp only
    split
    · rw [setEntityOverride_entity_overrides]
      exact mapSet_other cfg.entity_overrides eid e' _ hne
    · rw [setEntityOverride_entity_overrides]
      exact mapSet_other cfg.entity_overrides eid e' _ hne
  · intro d hnot
    unfold handleEntityButtonClick
    dsimp only
    split
    · exact setEntityOverride_dev_frame ents cfg eid none Source.selected d hnot
    · exact setEntityOverride_dev_frame ents cfg eid (some x) Source.selected d hnot

/-- Witness for C9: clicking `light.e1` leaves the stored override of
`light.e2` and of the unrelated device `d2` unchanged. -/
theorem c9_witness :
    (handleEntityButtonClick sampleEntities baseConfig "light.e1" true).entity_overrides "light.e2"
      = baseConfig.entity_overrides "light.e2" ∧
    (handleEntityButtonClick sampleEntities baseConfig "light.e1" true).device_overrides "d2"
      = baseConfig.device_overrides "d2" :=
  ⟨(c9_entity_edit_frame sampleEntities baseConfig "light.e1" true).1
      "light.e2" (by decide),
   (c9_entity_edit_frame sampleEntities baseConfig "light.e1" true).2
      "d2" (by decide)⟩

/-- C2: the device button action.  If the device is currently normalized
`selected` with the clicked expose value, the stored device override is
removed and every non-filtered owned entity whose normalized override is
`implied` has its stored override removed; otherwise the device becomes
stored `selected` with the clicked value and every non-filtered owned
entity that is normalized unset or `implied` becomes stored `implied` with
that value.  In both branches the stored override of every entity whose
normalized override is `selected` is unchanged. -/
theorem c2_device_button (ents : List Entity) (cfg : Config) (did : String)
    (x : Bool) :
    (getDeviceOverrideInfo cfg did = some ⟨x, Source.selected⟩ →
      (handleDeviceButtonClick ents cfg did x).device_overrides did = none ∧
      (∀ e ∈ ents, e.device_id = some did →
        isEntityFiltered cfg e.entity_id = false →
        (getEntityOverrideInfo cfg e.entity_id).map OverrideInfo.source
          = some Source.implied →
        (handleDeviceButtonClick ents cfg did x).entity_overrides e.entity_id
          = none)) ∧
    (getDeviceOverrideInfo cfg did ≠ some ⟨x, Source.selected⟩ →
      (handleDeviceButtonClick ents cfg did x).device_overrides did
        = some (StoredOverride.obj x (some Source.selected)) ∧
      (∀ e ∈ ents, e.device_id = some did →
        isEntityFiltered cfg e.entity_id = false →
        (getEntityOverrideInfo cfg e.entity_id = none ∨
          (getEntityOverrideInfo cfg e.entity_id).map OverrideInfo.source
            = some Source.implied) →
        (handleDeviceButtonClick ents cfg did x).entity_overrides e.entity_id
          = some (StoredOverride.obj x (some Source.implied)))) ∧
    (∀ k info, getEntityOverrideInfo cfg k = some info →
      info.source = Source.selected →
      (handleDeviceButtonClick ents cfg did x).entity_overrides k
        = cfg.entity_overrides k) := by
  refine ⟨?_, ?_, ?_⟩
  · intro h
    have hcond := (clickCond_iff (getDeviceOverrideInfo cfg did) x).mpr h
    unfold handleDeviceButtonClick
    dsimp only
    rw [if_pos hcond]
    constructor
    · rw [setDeviceOverride_dev]
      exact mapSet_self cfg.device_overrides did _
    · intro e he hdev hf himp
      rw [setDeviceOverride_entity_overrides]
      apply foldPropagate_hit cfg none e.entity_id none
        (stepResult_none_implied cfg e.entity_id hf himp)
      exact ⟨e, by simp [deviceEntitiesOf, List.mem_filter, he, hdev], rfl⟩
  · intro h
    have hcond : ¬((getDeviceOverrideInfo cfg did).map OverrideInfo.expose
        = some x ∧ (getDeviceOverrideInfo cfg did).map OverrideInfo.source
        = some Source.selected) :=
      fun hc => h ((clickCond_iff (getDeviceOverrideInfo cfg did) x).mp hc)
    unfold handleDeviceButtonClick
    dsimp only
    rw [if_neg hcond]
    constructor
    · rw [setDeviceOverride_dev]
      exact mapSet_self cfg.device_overrides did _
    · intro e he hdev hf hui
      rw [setDeviceOverride_entity_overrides]
      apply foldPropagate_hit cfg (some x) e.entity_id
        (some (StoredOverride.obj x (some Source.implied)))
        (stepResult_some_writes cfg x e.entity_id hf hui)
      exact ⟨e, by simp [deviceEntitiesOf, List.mem_filter, he, hdev], rfl⟩
  · intro k info hov hsel
    unfold handleDeviceButtonClick
    dsimp only
    split
    · rw [setDeviceOverride_entity_overrides]
      exact foldPropagate_at_skip cfg none k
        (stepResult_of_selected cfg none k info hov hsel) _ cfg.entity_overrides
    · rw [setDeviceOverride_entity_overrides]
      exact foldPropagate_at_skip cfg (some x) k
        (stepResult_of_selected cfg (some x) k info hov hsel) _
        cfg.entity_overrides

/-- Witness for C2: with device `d1` stored selected-expose, entity
`light.e1` implied-expose and entity `light.e2` selected-false, clicking
expose on `d1` removes the device override and the implied override of
`light.e1`, while `light.e2` keeps its stored selected override; clicking
expose on `d1` from the empty config instead makes `d1` selected and
`light.e1` implied. -/
theorem c2_witness :
    (handleDeviceButtonClick sampleEntities
      { baseConfig with device_overrides := mapSet emptyOv "d1" (some (StoredOverride.obj true (some Source.selected))), entity_overrides := mapSet (mapSet emptyOv "light.e1" (some (StoredOverride.obj true (some Source.implied)))) "light.e2" (some (StoredOverride.obj false (some Source.selected))) }
      "d1" true).device_overrides "d1" = none ∧
    (handleDeviceButtonClick sampleEntities
      { baseConfig with device_overrides := mapSet emptyOv "d1" (some (StoredOverride.obj true (some Source.selected))), entity_overrides := mapSet (mapSet emptyOv "light.e1" (some (StoredOverride.obj true (some Source.implied)))) "light.e2" (some (StoredOverride.obj false (some Source.selected))) }
      "d1" true).entity_overrides "light.e1" = none ∧
    (handleDeviceButtonClick sampleEntities
      { baseConfig with device_overrides := mapSet emptyOv "d1" (some (StoredOverride.obj true (some Source.selected))), entity_overrides := mapSet (mapSet emptyOv "light.e1" (some (StoredOverride.obj true (some Source.implied)))) "light.e2" (some (StoredOverride.obj false (some Source.selected))) }
      "d1" true).entity_overrides "light.e2"
      = some (StoredOverride.obj false (some Source.selected)) ∧
    (handleDeviceButtonClick sampleEntities baseConfig "d1" true).device_overrides "d1"
      = some (StoredOverride.obj true (some Source.selected)) ∧
    (handleDeviceButtonClick sampleEntities baseConfig "d1" true).entity_overrides "light.e1"
      = some (StoredOverride.obj true (some Source.implied)) := by
  refine ⟨?_, ?_, ?_, ?_, ?_⟩
  · exact ((c2_device_button sampleEntities
      { baseConfig with device_overrides := mapSet emptyOv "d1" (some (StoredOverride.obj true (some Source.selected))), entity_overrides := mapSet (mapSet emptyOv "light.e1" (some (StoredOverride.obj true (some Source.implied)))) "light.e2" (some (StoredOverride.obj false (some Source.selected))) }
      "d1" true).1 (by decide)).1
  · exact ((c2_device_button sampleEntities
      { baseConfig with device_overrides := mapSet emptyOv "d1" (some (StoredOverride.obj true (some Source.selected))), entity_overrides := mapSet (mapSet emptyOv "light.e1" (some (StoredOverride.obj true (some Source.implied)))) "light.e2" (some (StoredOverride.obj false (some Source.selected))) }
      "d1" true).1 (by decide)).2 ⟨"light.e1", some "d1", none⟩
      (by decide) rfl (by decide) (by decide)
  · exact ((c2_device_button sampleEntities
      { baseConfig with device_overrides := mapSet emptyOv "d1" (some (StoredOverride.obj true (some Source.selected))), entity_overrides := mapSet (mapSet emptyOv "light.e1" (some (StoredOverride.obj true (some Source.implied)))) "light.e2" (some (StoredOverride.obj false (some Source.selected))) }
      "d1" true).2.2 "light.e2" ⟨false, Source.selected⟩ (by decide) rfl)
  · exact ((c2_device_button sampleEntities baseConfig "d1" true).2.1
      (by decide)).1
  · exact ((c2_device_button sampleEntities baseConfig "d1" true).2.1
      (by decide)).2 ⟨"light.e1", some "d1", none⟩ (by decide) rfl
      (by decide) (by decide)

/-- C3: the upward recompute for a device with at least one non-filtered
owned entity.  A normalized-`selected` device is left unchanged; otherwise,
if every non-filtered owned entity is normalized `selected` with the same
expose value the stored device override becomes `implied` with that value;
otherwise a normalized-`implied` device override is removed and a device
with no stored override gets none added. -/
theorem c3_upward_recompute (ents : List Entity) (cfg : Config)
    (did : String) (hne : activeEntitiesOf ents cfg did ≠ []) :
    ((getDeviceOverrideInfo cfg did).map OverrideInfo.source
        = some Source.selected →
      recalculateDeviceState ents cfg did = cfg) ∧
    ((getDeviceOverrideInfo cfg did).map OverrideInfo.source
        ≠ some Source.selected →
      (∀ v, (∀ e ∈ activeEntitiesOf ents cfg did,
          getEntityOverrideInfo cfg e.entity_id = some ⟨v, Source.selected⟩) →
        (recalculateDeviceState ents cfg did).device_overrides did
          = some (StoredOverride.obj v (some Source.implied))) ∧
      ((¬∃ v, ∀ e ∈ activeEntitiesOf ents cfg did,
          getEntityOverrideInfo cfg e.entity_id = some ⟨v, Source.selected⟩) →
        ((getDeviceOverrideInfo cfg did).map OverrideInfo.source
            = some Source.implied →
          (recalculateDeviceState ents cfg did).device_overrides did = none) ∧
        (cfg.device_overrides did = none →
          (recalculateDeviceState ents cfg did).device_overrides did
            = none))) := by
  refine ⟨fun hsel => recalc_selected ents cfg did hsel, fun hnsel => ⟨?_, ?_⟩⟩
  · intro v hall
    rw [recalc_eval_write ents cfg did v hne hnsel
      (scanSelected_complete cfg _ v hne hall)]
    exact mapSet_self cfg.device_overrides did _
  · intro hnex
    cases hscan : scanSelected cfg (activeEntitiesOf ents cfg did) none with
    | some v => exact absurd ⟨v, scanSelected_sound cfg _ v hscan⟩ hnex
    | none =>
      constructor
      · intro himp
        rw [recalc_eval_clear ents cfg did hne hnsel hscan himp]
        exact mapSet_self cfg.device_overrides did none
      · intro hstored
        have hni : ¬(getDeviceOverrideInfo cfg did).map OverrideInfo.source
            = some Source.implied := by
          unfold getDeviceOverrideInfo
          rw [hstored]
          simp
        rw [recalc_eval_keep ents cfg did hne hnsel hscan hni]
        exact hstored

/-- Witness for C3: with both owned entities selected-expose, recomputing
device `d1` (which has no stored override) writes the stored implied-expose
device override. -/
theorem c3_witness :
    (recalculateDeviceState sampleEntities
      { baseConfig with entity_overrides := mapSet (mapSet emptyOv "light.e1" (some (StoredOverride.obj true (some Source.selected)))) "light.e2" (some (StoredOverride.obj true (some Source.selected))) }
      "d1").device_overrides "d1"
      = some (StoredOverride.obj true (some Source.implied)) :=
  ((c3_upward_recompute sampleEntities
      { baseConfig with entity_overrides := mapSet (mapSet emptyOv "light.e1" (some (StoredOverride.obj true (some Source.selected)))) "light.e2" (some (StoredOverride.obj true (some Source.selected))) }
      "d1" (by decide)).2 (by decide)).1 true (by decide)

/-- C5 counterexample: device `d1` is in `filtered_devices` and has no
stored override; an entity button click on its owned entity `light.e1`
triggers the upward recompute, which writes a stored implied override onto
the filtered device.  The claim that a filtered device is excluded from
propagation in both directions is therefore false on the code. -/
theorem c5_counterexample :
    isDeviceFiltered { baseConfig with filtered_devices := ["d1"] } "d1"
      = true ∧
    { baseConfig with filtered_devices := ["d1"] }.device_overrides "d1"
      = none ∧
    (handleEntityButtonClick [⟨"light.e1", some "d1", none⟩]
      { baseConfig with filtered_devices := ["d1"] }
      "light.e1" true).device_overrides "d1"
      = some (StoredOverride.obj true (some Source.implied)) := by
  refine ⟨rfl, rfl, ?_⟩
  decide

/-- C5 amended: device filtering does not exclude a device from propagation
at all.  Every user edit (entity or device button click) updates the
override maps completely independently of the `filtered_devices` set: only
entity filtering (`filtered_entities`) is consulted by the propagation
code, so the stored override of a filtered device is recomputed exactly as
if the device were not filtered. -/
theorem c5_amended_filtered_devices_ignored (ents : List Entity)
    (cfg : Config) (fd : List String) (a : Action) :
    (applyAction ents { cfg with filtered_devices := fd } a).entity_overrides
      = (applyAction ents cfg a).entity_overrides ∧
    (applyAction ents { cfg with filtered_devices := fd } a).device_overrides
      = (applyAction ents cfg a).device_overrides := by
  rw [applyAction_withFd ents cfg fd a]
  exact ⟨rfl, rfl⟩

/-- C8: a device with zero non-filtered owned entities is left unchanged by
the upward recompute, and no entity button click (in particular one on a
filtered owned entity) changes its stored device override. -/
theorem c8_no_active_entities_noop (ents : List Entity) (cfg : Config)
    (did : String) (h : activeEntitiesOf ents cfg did = []) :
    recalculateDeviceState ents cfg did = cfg ∧
    (∀ eid x, (handleEntityButtonClick ents cfg eid x).device_overrides did
      = cfg.device_overrides did) := by
  refine ⟨recalc_empty_active ents cfg did h, ?_⟩
  intro eid x
  unfold handleEntityButtonClick
  dsimp only
  split
  · exact setEntityOverride_dev_empty ents cfg eid none Source.selected did h
  · exact setEntityOverride_dev_empty ents cfg eid (some x) Source.selected did h

/-- Witness for C8: with both owned entities of `d1` filtered and `d1`
stored implied, recomputation leaves the config unchanged and an entity
click on the filtered `light.e1` leaves the stored device override of `d1`
unchanged. -/
theorem c8_witness :
    recalculateDeviceState sampleEntities
      { baseConfig with filtered_entities := ["light.e1", "light.e2"], device_overrides := mapSet emptyOv "d1" (some (StoredOverride.obj true (some Source.implied))) }
      "d1"
      = { baseConfig with filtered_entities := ["light.e1", "light.e2"], device_overrides := mapSet emptyOv "d1" (some (StoredOverride.obj true (some Source.implied))) } ∧
    (handleEntityButtonClick sampleEntities
      { baseConfig with filtered_entities := ["light.e1", "light.e2"], device_overrides := mapSet emptyOv "d1" (some (StoredOverride.obj true (some Source.implied))) }
      "light.e1" true).device_overrides "d1"
      = { baseConfig with filtered_entities := ["light.e1", "light.e2"], device_overrides := mapSet emptyOv "d1" (some (StoredOverride.obj true (some Source.implied))) }.device_overrides "d1" :=
  ⟨(c8_no_active_entities_noop sampleEntities
      { baseConfig with filtered_entities := ["light.e1", "light.e2"], device_overrides := mapSet emptyOv "d1" (some (StoredOverride.obj true (some Source.implied))) }
      "d1" (by decide)).1,
   (c8_no_active_entities_noop sampleEntities
      { baseConfig with filtered_entities := ["light.e1", "light.e2"], device_overrides := mapSet emptyOv "d1" (some (StoredOverride.obj true (some Source.implied))) }
      "d1" (by decide)).2 "light.e1" true⟩

/-- C6 (code-bug evaluation): normalization of a stored bare boolean.  The
guard `if (!override) return null` in `_getEntityOverrideInfo` and
`_getDeviceOverrideInfo` runs before the `typeof override === "boolean"`
branch, and the boolean `false` is falsy, so a stored legacy `false`
normalizes to unset (`none`) instead of the selected-exclude override the
claim (and the inline comment `Handle very old format: entityId:
true/false`) describes.  A stored legacy `true` and an object without a
source do normalize to `selected`, and normalization of the normalized form
is the identity. -/
theorem c6_legacy_false_eval :
    normalizeOverride (StoredOverride.bool false) = none ∧
    normalizeOverride (StoredOverride.bool true)
      = some ⟨true, Source.selected⟩ ∧
    normalizeOverride (StoredOverride.obj false none)
      = some ⟨false, Source.selected⟩ ∧
    getEntityOverrideInfo { baseConfig with entity_overrides := mapSet emptyOv "light.e1" (some (StoredOverride.bool false)) } "light.e1" = none ∧
    getDeviceOverrideInfo { baseConfig with device_overrides := mapSet emptyOv "d1" (some (StoredOverride.bool false)) } "d1" = none := by
  refine ⟨rfl, rfl, rfl, ?_, ?_⟩ <;> decide

/-- C7: normalization is total and never fails.  For every stored value the
normalizers return either a normalized expose/source pair or `none`
(unset), and a stored value that is neither a boolean nor an object
carrying an expose key (modelled by `StoredOverride.other`) is treated as
unset by both `_getEntityOverrideInfo` and `_getDeviceOverrideInfo`. -/
theorem c7_normalization_total (_ents : List Entity) :
    (∀ v : StoredOverride, normalizeOverride v = none ∨
      ∃ b s, normalizeOverride v = some ⟨b, s⟩) ∧
    (∀ (cfg : Config) (k : String),
      cfg.entity_overrides k = some StoredOverride.other →
      getEntityOverrideInfo cfg k = none) ∧
    (∀ (cfg : Config) (k : String),
      cfg.device_overrides k = some StoredOverride.other →
      getDeviceOverrideInfo cfg k = none) := by
  refine ⟨?_, ?_, ?_⟩
  · intro v
    cases v with
    | bool b =>
      cases b with
      | false => exact Or.inl rfl
      | true => exact Or.inr ⟨true, Source.selected, rfl⟩
    | obj e s => exact Or.inr ⟨e, s.getD Source.selected, rfl⟩
    | other => exact Or.inl rfl
  · intro cfg k h
    unfold getEntityOverrideInfo
    rw [h]
    rfl
  · intro cfg k h
    unfold getDeviceOverrideInfo
    rw [h]
    rfl

/-- Witness for C7: a stored unrecognized value on an entity and on a
device both normalize to unset. -/
theorem c7_witness :
    getEntityOverrideInfo { baseConfig with entity_overrides := mapSet emptyOv "light.e1" (some StoredOverride.other) } "light.e1" = none ∧
    getDeviceOverrideInfo { baseConfig with device_overrides := mapSet emptyOv "d1" (some StoredOverride.other) } "d1" = none :=
  ⟨(c7_normalization_total sampleEntities).2.1
      { baseConfig with entity_overrides := mapSet emptyOv "light.e1" (some StoredOverride.other) }
      "light.e1" (by decide),
   (c7_normalization_total sampleEntities).2.2
      { baseConfig with device_overrides := mapSet emptyOv "d1" (some StoredOverride.other) }
      "d1" (by decide)⟩

/-- C10: the auto-alias pass preserves manual configuration.  If
`settings.auto_aliases` is `false` the config is returned unchanged; an
entity whose entity-config entry already has a non-empty aliases list keeps
its entry unchanged; and an entry changes only for an id in the exposed
preview list whose original entry had no configured aliases, in which case
the original entry gains a generated aliases list of between one and five
entries. -/
theorem c10_auto_aliases_preserve_manual (ents : List Entity)
    (pv : List String) (config : Config) :
    (config.settings_auto_aliases = some false →
      applyAutoAliases ents pv config = config) ∧
    (∀ k ec l, config.entity_config k = some ec → ec.aliases = some l →
      l ≠ [] →
      (applyAutoAliases ents pv config).entity_config k
        = config.entity_config k) ∧
    (∀ k, (applyAutoAliases ents pv config).entity_config k
        ≠ config.entity_config k →
      k ∈ pv ∧
      hasConfiguredAliases ((config.entity_config k).getD ⟨none, none, none⟩)
        = false ∧
      ∃ sugg : List String, 0 < sugg.length ∧ sugg.length ≤ 5 ∧
        (applyAutoAliases ents pv config).entity_config k = some { (config.entity_config k).getD ⟨none, none, none⟩ with aliases := some sugg }) := by
  have key : ∀ k, (applyAutoAliases ents pv config).entity_config k
      = config.entity_config k ∨
      (k ∈ pv ∧
        hasConfiguredAliases ((config.entity_config k).getD ⟨none, none, none⟩)
          = false ∧
        ∃ sugg : List String, 0 < sugg.length ∧ sugg.length ≤ 5 ∧
          (applyAutoAliases ents pv config).entity_config k = some { (config.entity_config k).getD ⟨none, none, none⟩ with aliases := some sugg }) := by
    intro k
    unfold applyAutoAliases
    by_cases h1 : config.settings_auto_aliases = some false
    · rw [if_pos h1]
      exact Or.inl rfl
    · rw [if_neg h1]
      by_cases h2 : pv.isEmpty
      · rw [if_pos h2]
        exact Or.inl rfl
      · rw [if_neg h2]
        exact autoAlias_fold_inv ents config pv pv config (fun k' hk' => hk')
          (fun k' => Or.inl rfl) k
  refine ⟨?_, ?_, ?_⟩
  · intro h
    unfold applyAutoAliases
    rw [if_pos h]
  · intro k ec l hec hal hl
    rcases key k with h | ⟨_, hfalse, _⟩
    · exact h
    · exfalso
      have hlp : 0 < l.length := List.length_pos.mpr hl
      have htrue : hasConfiguredAliases ((some ec).getD ⟨none, none, none⟩)
          = true := by
        show hasConfiguredAliases ec = true
        unfold hasConfiguredAliases
        rw [hal]
        exact decide_eq_true hlp
      rw [hec] at hfalse
      cases htrue.symm.trans hfalse
  · intro k hne
    rcases key k with h | hch
    · exact absurd h hne
    · exact hch

/-- Witness for C10: with auto aliases disabled the pass is the identity,
and an entity with a manually configured alias keeps its entry. -/
theorem c10_witness :
    applyAutoAliases sampleEntities ["light.e1"]
      { baseConfig with settings_auto_aliases := some false }
      = { baseConfig with settings_auto_aliases := some false } ∧
    (applyAutoAliases sampleEntities ["light.e1"]
      { baseConfig with entity_config := mapSet emptyEc "light.e1" (some ⟨none, some ["my lamp"], none⟩) }).entity_config "light.e1"
      = { baseConfig with entity_config := mapSet emptyEc "light.e1" (some ⟨none, some ["my lamp"], none⟩) }.entity_config "light.e1" :=
  ⟨(c10_auto_aliases_preserve_manual sampleEntities ["light.e1"]
      { baseConfig with settings_auto_aliases := some false }).1 rfl,
   (c10_auto_aliases_preserve_manual sampleEntities ["light.e1"]
      { baseConfig with entity_config := mapSet emptyEc "light.e1" (some ⟨none, some ["my lamp"], none⟩) }).2.1
      "light.e1" ⟨none, some ["my lamp"], none⟩ ["my lamp"] (by decide) rfl
      (by decide)⟩

end GHEM
